import Mathlib

/-!
Verification of the permission-gated tool-execution core of `deepseek_code`
(files `permissions.py`, `tools/file_tools.py`, `tools/bash_tool.py`,
`agent.py`, `conversation.py`), as a shallow embedding: Python strings are
`String`/`List Char`, the filesystem is a partial map from paths to file
contents, and each Python function becomes a Lean function with the same
branch structure.
-/

namespace DeepseekCode

/-! ## Python string primitives

`str.lower`, `str.strip`, the `in` substring test, `str.count`,
`str.replace`, `str.readlines`-style line splitting and `str.rstrip`,
modelled over `List Char`.
-/

/-- Python whitespace for `str.strip` / `str.rstrip` and the regex class
backslash-s: space, tab, newline, carriage return, form feed, vertical tab. -/
def isPySpace (c : Char) : Bool :=
  c = ' ' || c = '\t' || c = '\n' || c = '\r' || c = '\x0c' || c = '\x0b'

/-- `str.lower` (ASCII case folding; every character in the permission
tables is ASCII). -/
def pyLower (s : List Char) : List Char := s.map Char.toLower

/-- Leading-whitespace strip. -/
def pyLstrip (s : List Char) : List Char := s.dropWhile isPySpace

/-- Trailing-whitespace strip (`str.rstrip`). -/
def pyRstrip (s : List Char) : List Char := (s.reverse.dropWhile isPySpace).reverse

/-- `str.strip`: both ends. -/
def pyStrip (s : List Char) : List Char := pyLstrip (pyRstrip s)

/-- `pat` is a prefix of `s` (Python `str.startswith`, also the head test of
the substring scan). -/
def isPre : List Char → List Char → Bool
  | [], _ => true
  | _ :: _, [] => false
  | a :: as, b :: bs => a == b && isPre as bs

/-- Python `pat in s`: `pat` occurs as a contiguous substring of `s`. -/
def containsSub : List Char → List Char → Bool
  | [], pat => pat.isEmpty
  | s@(_ :: rest), pat => isPre pat s || containsSub rest pat

/-- Scanner for Python `str.count(pat)` with non-overlapping left-to-right
matches; `skip` counts characters still inside the previously matched
occurrence. Entered with `skip = 0`; only meaningful for `pat ≠ []`. -/
def countOccGo (pat : List Char) : List Char → Nat → Nat
  | [], _ => 0
  | _ :: rest, k + 1 => countOccGo pat rest k
  | s@(_ :: rest), 0 =>
    if isPre pat s then 1 + countOccGo pat rest (pat.length - 1)
    else countOccGo pat rest 0

/-- Python `content.count(old_str)` (for the empty pattern Python counts
`len + 1` occurrences). -/
def countOcc (s pat : List Char) : Nat :=
  if pat.isEmpty then s.length + 1 else countOccGo pat s 0

/-- Scanner for Python `str.replace(pat, new)` (all non-overlapping
occurrences); `skip` counts characters of a matched occurrence still to be
consumed without copying. -/
def replaceGo (pat new : List Char) : List Char → Nat → List Char
  | [], _ => []
  | _ :: rest, k + 1 => replaceGo pat new rest k
  | s@(c :: rest), 0 =>
    if isPre pat s then new ++ replaceGo pat new rest (pat.length - 1)
    else c :: replaceGo pat new rest 0

/-- Python `content.replace(old_str, new_str)` (for the empty pattern Python
interleaves `new` around every character). -/
def pyReplace (s pat new : List Char) : List Char :=
  if pat.isEmpty then new ++ s.flatMap (fun c => c :: new)
  else replaceGo pat new s 0

/-! ### Characterizations of the string primitives -/

theorem isPre_iff (p s : List Char) : isPre p s = true ↔ ∃ t, s = p ++ t := by
  induction p generalizing s with
  | nil => simp [isPre]
  | cons a as ih =>
    cases s with
    | nil =>
      simp only [isPre, List.cons_append]
      constructor
      · intro h; cases h
      · rintro ⟨t, ht⟩; cases ht
    | cons b bs =>
      simp only [isPre, Bool.and_eq_true, beq_iff_eq, ih, List.cons_append,
        List.cons.injEq]
      constructor
      · rintro ⟨rfl, t, rfl⟩; exact ⟨t, rfl, rfl⟩
      · rintro ⟨t, rfl, rfl⟩; exact ⟨rfl, t, rfl⟩

theorem containsSub_iff (s pat : List Char) :
    containsSub s pat = true ↔ ∃ u v, s = u ++ pat ++ v := by
  induction s with
  | nil =>
    simp only [containsSub, List.isEmpty_iff]
    constructor
    · rintro rfl; exact ⟨[], [], rfl⟩
    · rintro ⟨u, v, huv⟩
      rcases List.append_eq_nil.mp huv.symm with ⟨h1, h2⟩
      exact (List.append_eq_nil.mp h1).2
  | cons c rest ih =>
    simp only [containsSub, Bool.or_eq_true, isPre_iff, ih]
    constructor
    · rintro (⟨t, ht⟩ | ⟨u, v, huv⟩)
      · exact ⟨[], t, by simp [ht]⟩
      · exact ⟨c :: u, v, by simp [huv]⟩
    · rintro ⟨u, v, huv⟩
      cases u with
      | nil => exact Or.inl ⟨v, by simpa using huv⟩
      | cons x u' =>
        simp only [List.cons_append, List.cons.injEq] at huv
        exact Or.inr ⟨u', v, huv.2⟩

theorem countOccGo_skip (pat : List Char) (s : List Char) (k : Nat) :
    countOccGo pat s k = countOccGo pat (s.drop k) 0 := by
  induction s generalizing k with
  | nil => simp [countOccGo]
  | cons c rest ih =>
    cases k with
    | zero => rfl
    | succ j => simpa [countOccGo] using ih j

theorem replaceGo_skip (pat new : List Char) (s : List Char) (k : Nat) :
    replaceGo pat new s k = replaceGo pat new (s.drop k) 0 := by
  induction s generalizing k with
  | nil => simp [replaceGo]
  | cons c rest ih =>
    cases k with
    | zero => rfl
    | succ j => simpa [replaceGo] using ih j

theorem replaceGo_of_count_zero (pat new : List Char) (s : List Char)
    (h : countOccGo pat s 0 = 0) : replaceGo pat new s 0 = s := by
  induction s with
  | nil => rfl
  | cons c rest ih =>
    by_cases hp : isPre pat (c :: rest) = true
    · simp [countOccGo, hp] at h
    · simp only [countOccGo, hp, if_neg, Bool.not_eq_true] at h
      simp only [replaceGo, hp, if_neg, Bool.not_eq_true]
      rw [ih h]

theorem replaceGo_of_count_one (p0 : Char) (ps new s : List Char)
    (h : countOccGo (p0 :: ps) s 0 = 1) :
    ∃ pre suf, s = pre ++ (p0 :: ps) ++ suf ∧
      replaceGo (p0 :: ps) new s 0 = pre ++ new ++ suf := by
  induction s with
  | nil => simp [countOccGo] at h
  | cons c rest ih =>
    by_cases hp : isPre (p0 :: ps) (c :: rest) = true
    · obtain ⟨t, ht⟩ := (isPre_iff (p0 :: ps) (c :: rest)).mp hp
      simp only [List.cons_append, List.cons.injEq] at ht
      obtain ⟨hc, hrest⟩ := ht
      have hdrop : rest.drop ((p0 :: ps).length - 1) = t := by
        simp only [List.length_cons, Nat.add_sub_cancel, hrest]
        exact List.drop_left ps t
      simp only [countOccGo] at h
      rw [if_pos hp, countOccGo_skip, hdrop] at h
      have h0 : countOccGo (p0 :: ps) t 0 = 0 := by omega
      refine ⟨[], t, by simp [hrest, hc], ?_⟩
      simp only [replaceGo]
      rw [if_pos hp, replaceGo_skip, hdrop,
        replaceGo_of_count_zero _ _ _ h0, List.nil_append]
    · simp only [countOccGo] at h
      rw [if_neg hp] at h
      obtain ⟨pre, suf, h1, h2⟩ := ih h
      refine ⟨c :: pre, suf, by simp [h1], ?_⟩
      simp only [replaceGo]
      rw [if_neg hp, h2]
      simp

/-- The unique-occurrence contract of `str.count` / `str.replace`: when
`pat` occurs exactly once, `replace` rewrites exactly that occurrence and
preserves everything outside it. -/
theorem pyReplace_of_count_one (s pat new : List Char)
    (h : countOcc s pat = 1) :
    ∃ pre suf, s = pre ++ pat ++ suf ∧
      pyReplace s pat new = pre ++ new ++ suf := by
  by_cases hp : pat.isEmpty = true
  · have hpat : pat = [] := List.isEmpty_iff.mp hp
    subst hpat
    simp only [countOcc, List.isEmpty_nil, if_pos, Nat.add_left_eq_self] at h
    have hs : s = [] := List.eq_nil_of_length_eq_zero (by omega)
    subst hs
    exact ⟨[], [], rfl, by simp [pyReplace]⟩
  · obtain ⟨p0, ps, rfl⟩ : ∃ p0 ps, pat = p0 :: ps := by
      cases pat with
      | nil => simp at hp
      | cons p0 ps => exact ⟨p0, ps, rfl⟩
    simp only [countOcc, hp, if_neg, Bool.not_eq_true] at h
    obtain ⟨pre, suf, h1, h2⟩ := replaceGo_of_count_one p0 ps new s h
    exact ⟨pre, suf, h1, by simpa [pyReplace, hp] using h2⟩

/-! ## A small regular-expression engine

`permissions.py` tests commands with `re.search(pattern, command,
re.IGNORECASE)` and session rules with `re.match` after translating `*`/`?`
wildcards.  The patterns actually used employ only: literal characters, the
class backslash-s, `.` (any character except newline), `?`, `*`, `+`,
alternation groups, an empty group `()`, and a final `$` anchor.  We embed
them as an AST and run a Brzozowski-derivative matcher (structurally
recursive, so concrete runs reduce by `decide`).  `$` matches at the end of
the text or just before a final newline, as in Python without `MULTILINE`;
it is factored out as a flag on the pattern table. -/

inductive Regex where
  | fail
  | eps
  | chr (c : Char)
  | any
  | ws
  | alt (r1 r2 : Regex)
  | cat (r1 r2 : Regex)
  | star (r : Regex)

/-- Does `r` accept the empty string? -/
def Regex.nullable : Regex → Bool
  | .fail => false
  | .eps => true
  | .chr _ => false
  | .any => false
  | .ws => false
  | .alt r1 r2 => r1.nullable || r2.nullable
  | .cat r1 r2 => r1.nullable && r2.nullable
  | .star _ => true

/-- Brzozowski derivative; `ci` selects `re.IGNORECASE` comparison. -/
def Regex.deriv (ci : Bool) : Regex → Char → Regex
  | .fail, _ => .fail
  | .eps, _ => .fail
  | .chr c, a =>
    if (if ci then a.toLower == c.toLower else a == c) then .eps else .fail
  | .any, a => if a == '\n' then .fail else .eps
  | .ws, a => if isPySpace a then .eps else .fail
  | .alt r1 r2, a => .alt (r1.deriv ci a) (r2.deriv ci a)
  | .cat r1 r2, a =>
    if r1.nullable then .alt (.cat (r1.deriv ci a) r2) (r2.deriv ci a)
    else .cat (r1.deriv ci a) r2
  | .star r, a => .cat (r.deriv ci a) (.star r)

/-- `r` matches all of `s`. -/
def Regex.matchesExact (ci : Bool) (r : Regex) (s : List Char) : Bool :=
  (s.foldl (Regex.deriv ci) r).nullable

/-- `r` matches some (possibly empty) prefix of `s`: `re.match` semantics. -/
def Regex.matchesPrefixAt (ci : Bool) : Regex → List Char → Bool
  | r, [] => r.nullable
  | r, c :: rest => r.nullable || Regex.matchesPrefixAt ci (r.deriv ci c) rest

/-- `r` matches a substring starting anywhere: `re.search` semantics. -/
def reSearch (ci : Bool) (r : Regex) : List Char → Bool
  | [] => Regex.matchesPrefixAt ci r []
  | s@(_ :: rest) => Regex.matchesPrefixAt ci r s || reSearch ci r rest

/-- `r` matches some suffix of `s` exactly. -/
def matchesSuffixExact (ci : Bool) (r : Regex) : List Char → Bool
  | [] => Regex.matchesExact ci r []
  | s@(_ :: rest) => Regex.matchesExact ci r s || matchesSuffixExact ci r rest

/-- `re.search` for a pattern of the shape `A$`: the match must end at the
end of the text or just before a final newline. -/
def searchDollar (ci : Bool) (r : Regex) (s : List Char) : Bool :=
  matchesSuffixExact ci r s ||
    (if s.getLast? == some '\n' then matchesSuffixExact ci r s.dropLast
     else false)

/-- Concatenation of a pattern list. -/
def Regex.seq (rs : List Regex) : Regex := rs.foldr .cat .eps

/-- Literal word. -/
def rlit (s : String) : Regex := Regex.seq (s.data.map .chr)

/-- The regex `backslash-s +`. -/
def wsPlus : Regex := .cat .ws (.star .ws)

/-- The regex `backslash-s *`. -/
def wsStar : Regex := .star .ws

/-- The regex `r?`. -/
def ropt (r : Regex) : Regex := .alt r .eps

/-- Wildcard translation performed by `PermissionManager._matches_pattern`:
`pattern.replace("*", ".*").replace("?", ".")` handed to `re.match`.  `*`
becomes `.*` and `?` becomes `.`; all other characters in session-rule
patterns are modelled as literals (the stored rules contain no further
regex metacharacters). -/
def compileWildcard : List Char → Regex
  | [] => .eps
  | '*' :: rest => .cat (.star .any) (compileWildcard rest)
  | '?' :: rest => .cat .any (compileWildcard rest)
  | c :: rest => .cat (.chr c) (compileWildcard rest)

/-! ## Permission engine (`permissions.py`) -/

/-- `PermissionLevel` (AUTO / ASK / DENY). -/
inductive PermissionLevel where
  | AUTO
  | ASK
  | DENY
deriving DecidableEq

/-- Tool arguments: a string-keyed mapping with string values (the only
accesses the permission engine performs are `tool_input.get("command", "")`
and `tool_input.get("path", "")`).  Modelled as an association list without
duplicate keys. -/
def ToolInput := List (String × String)

instance : DecidableEq ToolInput :=
  inferInstanceAs (DecidableEq (List (String × String)))

/-- `dict.get(key, default)`. -/
def tiGet (ti : ToolInput) (key default : String) : String :=
  match ti.find? (fun kv => kv.1 == key) with
  | some kv => kv.2
  | none => default

/-- `PermissionRequest`. -/
structure PermissionRequest where
  tool_name : String
  tool_input : ToolInput
  level : PermissionLevel
  reason : Option String := none
deriving DecidableEq

/-- One entry of `PermissionManager.DANGEROUS_BASH_PATTERNS`: compiled
regex, whether the source pattern ends with `$`, and the reason string. -/
structure DangerPattern where
  re : Regex
  endAnchor : Bool
  reason : String

/-- `re.search(pattern, command, re.IGNORECASE)` for one table entry. -/
def DangerPattern.search (p : DangerPattern) (command : String) : Bool :=
  if p.endAnchor then searchDollar true p.re command.data
  else reSearch true p.re command.data

/-- `PermissionManager`: mode flags and session rule sets.  The Python sets
are modelled as lists; the engine only ever asks whether *some* element
matches, so set iteration order is unobservable. -/
structure PermissionManager where
  trust_mode : Bool
  yolo_mode : Bool
  session_allowlist : List String
  session_denylist : List String

namespace PermissionManager

/-- `DANGEROUS_BASH_PATTERNS`, in source order.  Each entry's comment gives
the Python regex it embeds.  In the fork-bomb pattern the bare `()` is an
empty regex group (it matches nothing), and the braces are literal
characters. -/
def DANGEROUS_BASH_PATTERNS : List DangerPattern := [
  -- rm backslash-s + -rf? backslash-s + /
  ⟨Regex.seq [rlit "rm", wsPlus, rlit "-r", ropt (.chr 'f'), wsPlus,
    .chr '/'], false, "Recursive delete from root"⟩,
  -- rm backslash-s + -rf? backslash-s + ~
  ⟨Regex.seq [rlit "rm", wsPlus, rlit "-r", ropt (.chr 'f'), wsPlus,
    .chr '~'], false, "Recursive delete from home"⟩,
  -- rm backslash-s + -rf? backslash-s + backslash-*
  ⟨Regex.seq [rlit "rm", wsPlus, rlit "-r", ropt (.chr 'f'), wsPlus,
    .chr '*'], false, "Recursive delete with wildcard"⟩,
  -- sudo backslash-s +
  ⟨Regex.seq [rlit "sudo", wsPlus], false, "Sudo command"⟩,
  -- chmod backslash-s + 777
  ⟨Regex.seq [rlit "chmod", wsPlus, rlit "777"], false,
    "World-writable permissions"⟩,
  -- > backslash-s * /dev/sd
  ⟨Regex.seq [.chr '>', wsStar, rlit "/dev/sd"], false,
    "Write to disk device"⟩,
  -- backslash-| backslash-s * sh backslash-s * $
  ⟨Regex.seq [.chr '|', wsStar, rlit "sh", wsStar], true, "Piping to shell"⟩,
  -- backslash-| backslash-s * bash backslash-s * $
  ⟨Regex.seq [.chr '|', wsStar, rlit "bash", wsStar], true,
    "Piping to bash"⟩,
  -- curl .* backslash-| backslash-s * (sh|bash)
  ⟨Regex.seq [rlit "curl", .star .any, .chr '|', wsStar,
    .alt (rlit "sh") (rlit "bash")], false, "Curl piping to shell"⟩,
  -- wget .* backslash-| backslash-s * (sh|bash)
  ⟨Regex.seq [rlit "wget", .star .any, .chr '|', wsStar,
    .alt (rlit "sh") (rlit "bash")], false, "Wget piping to shell"⟩,
  -- : () backslash-s * brace backslash-s * : backslash-| : & backslash-s * brace
  ⟨Regex.seq [.chr ':', .eps, wsStar, .chr '\x7b', wsStar, .chr ':',
    .chr '|', .chr ':', .chr '&', wsStar, .chr '\x7d'], false, "Fork bomb"⟩,
  -- mkfs backslash-.
  ⟨Regex.seq [rlit "mkfs", .chr '.'], false, "Filesystem format"⟩]

/-- `BLOCKED_COMMANDS`. -/
def BLOCKED_COMMANDS : List String :=
  ["rm -rf /", "rm -rf /*", "dd if=/dev/zero of=/dev/sda"]

/-- `_matches_pattern`: wildcard pattern translated to a regex and applied
with `re.match` (anchored at the start, free at the end). -/
def matches_pattern (text pattern : String) : Bool :=
  Regex.matchesPrefixAt false (compileWildcard pattern.data) text.data

/-- `str.startswith` (over character lists, so concrete runs reduce). -/
def pyStartsWith (s pre : String) : Bool := isPre pre.data s.data

/-- `str.endswith`. -/
def pyEndsWith (s suf : String) : Bool := isPre suf.data.reverse s.data.reverse

/-- Python slicing `s[k:-1]`. -/
def pySliceToLast (s : String) (k : Nat) : String :=
  String.mk ((s.data.drop k).dropLast)

/-- One iteration of the session-rule loops for `bash` rules: the rule must
look like `bash(pattern)` and the pattern must match the command
(`rule[5:-1]` is the stored pattern). -/
def bashRuleMatch (rule command : String) : Bool :=
  pyStartsWith rule "bash(" && pyEndsWith rule ")" &&
    matches_pattern command (pySliceToLast rule 5)

/-- One iteration of the allowlist loop for `write(path-pattern)` rules
(`rule[6:-1]` is the stored pattern). -/
def writeRuleMatch (rule path : String) : Bool :=
  pyStartsWith rule "write(" && pyEndsWith rule ")" &&
    matches_pattern path (pySliceToLast rule 6)

/-- `_check_bash_command`: blocked substrings (on the lower-cased, stripped
command), then dangerous patterns, then session allow rules, then session
deny rules, else ASK. -/
def check_bash_command (pm : PermissionManager) (command : String) :
    PermissionLevel × Option String :=
  let cmd_lower : List Char := pyStrip (pyLower command.data)
  match BLOCKED_COMMANDS.find? (fun b => containsSub cmd_lower b.data) with
  | some b => (.DENY, some ("Blocked command: " ++ b))
  | none =>
  match DANGEROUS_BASH_PATTERNS.find? (fun p => p.search command) with
  | some p => (.DENY, some ("Dangerous pattern: " ++ p.reason))
  | none =>
  if pm.session_allowlist.any (fun a => bashRuleMatch a command) then
    (.AUTO, none)
  else if pm.session_denylist.any (fun d => bashRuleMatch d command) then
    (.DENY, some "Denied by session rule")
  else (.ASK, none)

/-- `check_permission`. -/
def check_permission (pm : PermissionManager) (tool_name : String)
    (tool_input : ToolInput) : PermissionRequest :=
  if pm.yolo_mode then
    if tool_name = "bash" then
      let lr := pm.check_bash_command (tiGet tool_input "command" "")
      if lr.1 = PermissionLevel.DENY then
        ⟨tool_name, tool_input, lr.1, lr.2⟩
      else ⟨tool_name, tool_input, .AUTO, none⟩
    else ⟨tool_name, tool_input, .AUTO, none⟩
  else if tool_name = "read_file" ∨ tool_name = "glob" ∨ tool_name = "grep"
  then ⟨tool_name, tool_input, .AUTO, none⟩
  else if tool_name = "write_file" ∨ tool_name = "edit_file" then
    let path := tiGet tool_input "path" ""
    if pm.session_allowlist.any (fun a => writeRuleMatch a path) then
      ⟨tool_name, tool_input, .AUTO, none⟩
    else
      ⟨tool_name, tool_input,
        if pm.trust_mode then .AUTO else .ASK, none⟩
  else if tool_name = "bash" then
    let lr := pm.check_bash_command (tiGet tool_input "command" "")
    let level :=
      if lr.1 = PermissionLevel.ASK ∧ pm.trust_mode then PermissionLevel.AUTO
      else lr.1
    ⟨tool_name, tool_input, level, lr.2⟩
  else
    ⟨tool_name, tool_input, if pm.trust_mode then .AUTO else .ASK, none⟩

end PermissionManager

/-! ## Tools (`tools/base.py`, `tools/file_tools.py`, `tools/bash_tool.py`)

The filesystem is a partial map from (resolved) path strings to file
contents; a mapped path is an existing regular file.  Directories and OS
permission errors are outside the modelled state, and path resolution is
the identity (the claims quantify over already-resolved paths). -/

/-- `ToolResult`. -/
structure ToolResult where
  success : Bool
  output : String
  error : Option String := none
deriving DecidableEq

/-- The filesystem state. -/
def FS := String → Option String

namespace WriteFileTool

/-- `WriteFileTool.execute`: create or overwrite `path` with `content`,
report the character count.  Returns the result and the new filesystem. -/
def execute (fs : FS) (path content : String) : ToolResult × FS :=
  (⟨true, "Successfully wrote " ++ toString content.length ++
      " characters to " ++ path, none⟩,
   fun q => if q = path then some content else fs q)

end WriteFileTool

/-! Text-mode reading applies universal-newline translation. -/

/-- Universal newlines: CRLF and lone CR both become LF. -/
def univNewlines : List Char → List Char
  | [] => []
  | '\r' :: '\n' :: rest => '\n' :: univNewlines rest
  | '\r' :: rest => '\n' :: univNewlines rest
  | c :: rest => c :: univNewlines rest

/-- `f.readlines()`: split after every newline, keeping the newline;
a final fragment without a newline is kept, an empty tail is not. -/
def readlinesGo : List Char → List Char → List (List Char)
  | acc, [] => if acc.isEmpty then [] else [acc.reverse]
  | acc, c :: rest =>
    if c = '\n' then (acc.reverse ++ ['\n']) :: readlinesGo [] rest
    else readlinesGo (c :: acc) rest

/-- Python `f"{i:6d}"`: decimal, right-justified to width 6. -/
def fmt6 (i : Nat) : List Char :=
  let d := (Nat.repr i).data
  List.replicate (6 - d.length) ' ' ++ d

/-- The numbering loop of `ReadFileTool.execute`:
`f"{i:6d}binary-tab{line.rstrip()}"` for each line. -/
def numberLines : Nat → List (List Char) → List (List Char)
  | _, [] => []
  | i, l :: ls => (fmt6 i ++ '\t' :: pyRstrip l) :: numberLines (i + 1) ls

/-- The whole formatting pipeline of `ReadFileTool.execute` for an existing
file: split into lines, apply the 1-indexed `offset` and the `limit`,
number the lines (trailing whitespace stripped), join with newlines, and
wrap in the header (or the `is empty` message). -/
def readRender (path raw : String) (limit : Option Int) (offset : Int) :
    String :=
  let lines := readlinesGo [] (univNewlines raw.data)
  let start_idx : Nat := (max 0 (offset - 1)).toNat
  let lines1 := lines.drop start_idx
  let lines2 :=
    match limit with
    | some l => if 0 < l then lines1.take l.toNat else lines1
    | none => lines1
  let content := List.intercalate ['\n'] (numberLines (start_idx + 1) lines2)
  if content.isEmpty then path ++ " is empty"
  else "Contents of " ++ path ++ ":\n" ++ String.mk content

namespace ReadFileTool

/-- `ReadFileTool.execute`. -/
def execute (fs : FS) (path : String) (limit : Option Int) (offset : Int) :
    ToolResult :=
  match fs path with
  | none => ⟨false, "", some ("File not found: " ++ path)⟩
  | some raw => ⟨true, readRender path raw limit offset, none⟩

end ReadFileTool

/-- Error text of `EditFileTool.execute` when `old_str` does not occur. -/
def editNotFoundMsg : String :=
  "String not found in file. Make sure old_str exactly matches the file content including whitespace."

/-- Error text of `EditFileTool.execute` when `old_str` occurs `n > 1`
times (built over character lists so its shape is available to proofs). -/
def editAmbiguousMsg (n : Nat) : String :=
  String.mk ("String found ".data ++ (Nat.repr n).data ++
    " times. old_str must be unique. Include more surrounding context to make it unique.".data)

namespace EditFileTool

/-- `EditFileTool.execute`: unique-occurrence string replacement.  The
file is read in text mode, so `content` is the universal-newline
translation of the stored bytes; counting and replacing run over that
translated text, and the write-back stores it (text-mode writing on Linux
leaves every character unchanged).  Returns the result and the (possibly
updated) filesystem. -/
def execute (fs : FS) (path old_str new_str : String) : ToolResult × FS :=
  match fs path with
  | none => (⟨false, "", some ("File not found: " ++ path)⟩, fs)
  | some raw =>
    let content := univNewlines raw.data
    let count := countOcc content old_str.data
    if count = 0 then (⟨false, "", some editNotFoundMsg⟩, fs)
    else if count > 1 then (⟨false, "", some (editAmbiguousMsg count)⟩, fs)
    else
      let new_content := String.mk (pyReplace content old_str.data
        new_str.data)
      let lines_changed := countOcc old_str.data ['\n'] + 1
      (⟨true, "Successfully edited " ++ path ++ " (" ++
          toString lines_changed ++ " line(s) affected)", none⟩,
       fun q => if q = path then some new_content else fs q)

end EditFileTool

/-- Outcome of actually running a shell command (the `subprocess.run`
boundary): completion with an exit code and captured streams, or a
timeout. -/
inductive RunOutcome where
  | completed (returncode : Int) (stdout stderr : String)
  | timedOut

namespace BashTool

/-- `BashTool.BLOCKED_PATTERNS` (the tool-level list; it differs from the
engine-level `BLOCKED_COMMANDS`). -/
def BLOCKED_PATTERNS : List String :=
  ["rm -rf /", "rm -rf /*", ":()\x7b :|:& \x7d;:", "> /dev/sda",
   "dd if=/dev/zero of=/dev/", "mkfs."]

/-- `BashTool.is_blocked`: case-insensitive substring test of every
blocked pattern against the whole command text. -/
def is_blocked (command : String) : Bool :=
  BLOCKED_PATTERNS.any (fun p => containsSub (pyLower command.data) p.data)

/-- `BashTool.execute`, parameterised by the subprocess boundary `runner`;
a blocked command is refused before `runner` is ever consulted. -/
def execute (runner : String → Nat → RunOutcome) (command : String)
    (timeout : Nat) : ToolResult :=
  if is_blocked command then
    ⟨false, "", some "This command is blocked for safety reasons."⟩
  else
    match runner command timeout with
    | .timedOut =>
      ⟨false, "", some ("Command timed out after " ++ toString timeout ++
        " seconds")⟩
    | .completed rc out err =>
      let parts := (if out.isEmpty then [] else [out.data]) ++
        (if err.isEmpty then [] else [err.data])
      let output := pyStrip (List.intercalate ['\n'] parts)
      let output : String :=
        if output.length > 50000 then
          String.mk (output.take 50000) ++ "\n... (output truncated, " ++
            toString output.length ++ " total chars)"
        else String.mk output
      if rc = 0 then
        ⟨true,
          if output.isEmpty then "$ " ++ command ++ "\n(no output)"
          else "$ " ++ command ++ "\n" ++ output, none⟩
      else
        ⟨false, "$ " ++ command ++ "\n" ++ output,
          some ("Command exited with code " ++ toString rc)⟩

end BashTool

/-! ## Conversation and agent loop (`conversation.py`, `agent.py`, `llm.py`)

The model collaborator is a parameter `client : List Message → LLMResponse`
(one invocation per request/response round-trip), and tool execution —
permission prompt included — is a parameter `execTool : ToolCall → String`
giving the result string appended for each requested call, matching
`Agent._execute_tool`'s observable effect on the conversation. -/

/-- A `ToolCall` from the model. -/
structure ToolCall where
  id : String
  name : String
  arguments : ToolInput

/-- `LLMResponse` (the fields the agent loop inspects). -/
structure LLMResponse where
  content : Option String
  tool_calls : List ToolCall

/-- `LLMResponse.has_tool_calls`. -/
def LLMResponse.has_tool_calls (r : LLMResponse) : Bool :=
  r.tool_calls.length > 0

/-- A conversation message (the role-tagged dicts of `conversation.py`). -/
inductive Message where
  | system (content : String)
  | user (content : String)
  | assistant (content : Option String) (tool_calls : List ToolCall)
  | tool (tool_call_id : String) (content : String)

/-- `DeepSeekClient.format_assistant_message`: the `content` key is set
only when the content is truthy (non-`None` and non-empty). -/
def format_assistant_message (r : LLMResponse) : Message :=
  Message.assistant
    (match r.content with
     | some c => if c.isEmpty then none else some c
     | none => none)
    r.tool_calls

/-- `ConversationHistory`. -/
structure ConversationHistory where
  messages : List Message
  system_prompt : String
  max_messages : Nat

namespace ConversationHistory

/-- `add_user_message`. -/
def add_user_message (h : ConversationHistory) (content : String) :
    ConversationHistory :=
  { h with messages := h.messages ++ [.user content] }

/-- `add_assistant_message`. -/
def add_assistant_message (h : ConversationHistory) (m : Message) :
    ConversationHistory :=
  { h with messages := h.messages ++ [m] }

/-- `add_tool_results`. -/
def add_tool_results (h : ConversationHistory) (rs : List Message) :
    ConversationHistory :=
  { h with messages := h.messages ++ rs }

/-- `get_full_context`: system prompt (when truthy) followed by the
messages. -/
def get_full_context (h : ConversationHistory) : List Message :=
  (if h.system_prompt.isEmpty then [] else [.system h.system_prompt]) ++
    h.messages

/-- `clear`. -/
def clear (h : ConversationHistory) : ConversationHistory :=
  { h with messages := [] }

end ConversationHistory

/-- `AgentConfig`. -/
structure AgentConfig where
  max_turns : Nat
  trust_mode : Bool
  verbose : Bool

/-- The agent state: configuration, permission manager, system prompt and
conversation history. -/
structure Agent where
  config : AgentConfig
  permissions : PermissionManager
  system_prompt : String
  history : ConversationHistory

namespace Agent

/-- `Agent.run_turn`: optionally add a user message, call the model on the
full context, record the assistant reply; with tool calls, execute them in
order and append their results (returning `none` = still processing),
otherwise return the reply content (which Python may itself be `None`). -/
def run_turn (client : List Message → LLMResponse)
    (execTool : ToolCall → String) (a : Agent)
    (user_message : Option String) : Option String × Agent :=
  let a1 :=
    match user_message with
    | some m => { a with history := a.history.add_user_message m }
    | none => a
  let response := client a1.history.get_full_context
  let a2 := { a1 with history :=
    a1.history.add_assistant_message (format_assistant_message response) }
  if response.has_tool_calls then
    let results := response.tool_calls.map
      (fun tc => Message.tool tc.id (execTool tc))
    (none, { a2 with history := a2.history.add_tool_results results })
  else (response.content, a2)

/-- The bounded `for turn in range(max_turns)` loop of `Agent.run`.  The
third component counts the model request/response round-trips performed
(observational instrumentation; each `run_turn` performs exactly one). -/
def runLoop (client : List Message → LLMResponse)
    (execTool : ToolCall → String) : Nat → Agent → String × Agent × Nat
  | 0, a => ("Task incomplete - maximum turns reached.", a, 0)
  | n + 1, a =>
    match run_turn client execTool a none with
    | (some text, a') => (text, a', 1)
    | (none, a') =>
      let r := runLoop client execTool n a'
      (r.1, r.2.1, r.2.2 + 1)

/-- `Agent.run`: add the task as a user message and loop up to
`max_turns` turns. -/
def run (client : List Message → LLMResponse)
    (execTool : ToolCall → String) (a : Agent) (task : String) :
    String × Agent × Nat :=
  runLoop client execTool a.config.max_turns
    { a with history := a.history.add_user_message task }

/-- `Agent.reset`: replace the history with a fresh
`ConversationHistory(system_prompt=self.system_prompt)` (empty messages,
default soft limit 100); the permission manager is untouched. -/
def reset (a : Agent) : Agent :=
  { a with history :=
      { messages := [], system_prompt := a.system_prompt,
        max_messages := 100 } }

end Agent

/-! ## Witness fixtures -/

/-- A filesystem with no files. -/
def emptyFS : FS := fun _ => none

/-- A one-file filesystem used to instantiate the edit-tool theorems. -/
def fsNotes : FS := fun p => if p = "notes.txt" then some "hello world" else none

/-- A one-file filesystem whose file contains a CRLF line ending. -/
def fsCrlf : FS := fun p => if p = "p.txt" then some "hello\r\nworld" else none

/-- A one-file filesystem whose file contains a lone CR inside a CRLF. -/
def fsCr : FS := fun p => if p = "q.txt" then some "a\r\nb" else none

/-- A model collaborator that always requests one tool call and never
returns final text. -/
def clientLoop : List Message → LLMResponse :=
  fun _ => ⟨none, [⟨"call_1", "bash", [("command", "ls")]⟩]⟩

/-- A tool-execution collaborator with a fixed result string. -/
def execToolOk : ToolCall → String := fun _ => "ok"

/-- A concrete agent with a turn budget of 2. -/
def agentTwoTurns : Agent :=
  ⟨⟨2, false, false⟩, ⟨false, false, [], []⟩, "", ⟨[], "", 100⟩⟩

/-! ## Supporting lemmas -/

theorem exists_sub_dropWhile (c : Char) (p : List Char)
    (hc : isPySpace c = false) :
    ∀ u v : List Char,
      ∃ u' v', (u ++ (c :: p) ++ v).dropWhile isPySpace = u' ++ (c :: p) ++ v'
  | [], v => ⟨[], v, by simp [List.dropWhile_cons, hc]⟩
  | x :: u, v => by
    by_cases hx : isPySpace x = true
    · obtain ⟨u', v', h⟩ := exists_sub_dropWhile c p hc u v
      exact ⟨u', v', by simpa [List.dropWhile_cons, hx] using h⟩
    · exact ⟨x :: u, v, by simp [List.dropWhile_cons, hx]⟩

theorem containsSub_pyStrip (c c' : Char) (p p' L : List Char)
    (hsplit : c :: p = p' ++ [c'])
    (hc : isPySpace c = false) (hc' : isPySpace c' = false)
    (h : containsSub L (c :: p) = true) :
    containsSub (pyStrip L) (c :: p) = true := by
  obtain ⟨u, v, rfl⟩ := (containsSub_iff _ _).mp h
  have hrev : (u ++ (c :: p) ++ v).reverse
      = v.reverse ++ (c' :: p'.reverse) ++ u.reverse := by
    rw [hsplit]; simp
  obtain ⟨u1, v1, h1⟩ :=
    exists_sub_dropWhile c' p'.reverse hc' v.reverse u.reverse
  have h2 : pyRstrip (u ++ (c :: p) ++ v)
      = v1.reverse ++ (c :: p) ++ u1.reverse := by
    unfold pyRstrip
    rw [hrev, h1, hsplit]
    simp
  obtain ⟨u2, v2, h3⟩ := exists_sub_dropWhile c p hc v1.reverse u1.reverse
  refine (containsSub_iff _ _).mpr ⟨u2, v2, ?_⟩
  unfold pyStrip pyLstrip
  rw [h2, h3]

theorem containsSub_of_containsSub (L b q : List Char)
    (h1 : containsSub L b = true) (h2 : containsSub b q = true) :
    containsSub L q = true := by
  obtain ⟨u, v, rfl⟩ := (containsSub_iff _ _).mp h1
  obtain ⟨u', v', rfl⟩ := (containsSub_iff _ _).mp h2
  exact (containsSub_iff _ _).mpr ⟨u ++ u', v' ++ v, by simp⟩

namespace PermissionManager

theorem check_bash_command_deny_of_blocked (pm : PermissionManager)
    (cmd : String)
    (h : ∃ b ∈ BLOCKED_COMMANDS,
      containsSub (pyStrip (pyLower cmd.data)) b.data = true) :
    (pm.check_bash_command cmd).1 = PermissionLevel.DENY := by
  unfold check_bash_command
  cases hfind : BLOCKED_COMMANDS.find?
      (fun b => containsSub (pyStrip (pyLower cmd.data)) b.data) with
  | some b => simp [hfind]
  | none =>
    exfalso
    obtain ⟨b, hb, hc⟩ := h
    exact absurd hc (by simpa using List.find?_eq_none.mp hfind b hb)

theorem check_bash_command_deny_of_danger (pm : PermissionManager)
    (cmd : String)
    (h : ∃ p ∈ DANGEROUS_BASH_PATTERNS, p.search cmd = true) :
    (pm.check_bash_command cmd).1 = PermissionLevel.DENY := by
  unfold check_bash_command
  cases hfind : BLOCKED_COMMANDS.find?
      (fun b => containsSub (pyStrip (pyLower cmd.data)) b.data) with
  | some b => simp [hfind]
  | none =>
    cases hfind2 : DANGEROUS_BASH_PATTERNS.find? (fun p => p.search cmd) with
    | some p => simp [hfind, hfind2]
    | none =>
      exfalso
      obtain ⟨p, hp, hs⟩ := h
      exact absurd hs (by simpa using List.find?_eq_none.mp hfind2 p hp)

/-- A DENY verdict of `_check_bash_command` survives `check_permission`
unchanged in every mode: yolo returns it directly, and trust only promotes
ASK. -/
theorem check_permission_bash_deny (pm : PermissionManager) (ti : ToolInput)
    (h : (pm.check_bash_command (tiGet ti "command" "")).1
      = PermissionLevel.DENY) :
    (pm.check_permission "bash" ti).level = PermissionLevel.DENY := by
  unfold check_permission
  by_cases hy : pm.yolo_mode = true
  · simp [hy, h]
  · simp only [Bool.not_eq_true] at hy
    simp [hy, h]

end PermissionManager

/-- Helper for C9: a blocked-list literal occurring in the lower-cased
command text makes the engine DENY and the bash tool refuse, given a
decomposition witnessing that the literal starts and ends with
non-whitespace (so stripping cannot break the occurrence) and a tool-level
blocked pattern contained in the literal. -/
theorem deny_and_refuse_of_blocked_literal (pm : PermissionManager)
    (ti : ToolInput) (b pX : String)
    (hbm : b ∈ PermissionManager.BLOCKED_COMMANDS)
    (hpm : pX ∈ BashTool.BLOCKED_PATTERNS)
    (hsub : containsSub b.data pX.data = true)
    (c c' : Char) (p p' : List Char)
    (hbd : b.data = c :: p) (hsplit : c :: p = p' ++ [c'])
    (hc : isPySpace c = false) (hc' : isPySpace c' = false)
    (hin : containsSub (pyLower (tiGet ti "command" "").data) b.data = true) :
    (pm.check_permission "bash" ti).level = PermissionLevel.DENY ∧
    ∀ runner timeout,
      BashTool.execute runner (tiGet ti "command" "") timeout =
        ⟨false, "", some "This command is blocked for safety reasons."⟩ := by
  constructor
  · apply PermissionManager.check_permission_bash_deny
    apply PermissionManager.check_bash_command_deny_of_blocked
    refine ⟨b, hbm, ?_⟩
    rw [hbd] at hin ⊢
    exact containsSub_pyStrip c c' p p' _ hsplit hc hc' hin
  · intro runner timeout
    have hblocked : BashTool.is_blocked (tiGet ti "command" "") = true := by
      unfold BashTool.is_blocked
      rw [List.any_eq_true]
      exact ⟨pX, hpm, containsSub_of_containsSub _ _ _ hin hsub⟩
    simp [BashTool.execute, hblocked]

/-- C1: any shell command whose lower-cased, stripped text contains an
unconditionally-blocked literal — or that matches a dangerous-shape
pattern — is classified DENY by `check_permission` for every combination
of yolo/trust mode flags and session rule sets; no mode downgrades such a
DENY. -/
theorem C1_blocklist_deny_every_mode (pm : PermissionManager)
    (ti : ToolInput)
    (h : (∃ b ∈ PermissionManager.BLOCKED_COMMANDS,
            containsSub (pyStrip (pyLower (tiGet ti "command" "").data))
              b.data = true) ∨
         (∃ p ∈ PermissionManager.DANGEROUS_BASH_PATTERNS,
            p.search (tiGet ti "command" "") = true)) :
    (pm.check_permission "bash" ti).level = PermissionLevel.DENY := by
  apply PermissionManager.check_permission_bash_deny
  rcases h with hb | hd
  · exact PermissionManager.check_bash_command_deny_of_blocked pm _ hb
  · exact PermissionManager.check_bash_command_deny_of_danger pm _ hd

/-- Witness for C1: `rm -rf /` under bypass-all (yolo) mode is DENY. -/
theorem C1_witness :
    (∃ b ∈ PermissionManager.BLOCKED_COMMANDS,
      containsSub (pyStrip (pyLower
        (tiGet [("command", "rm -rf /")] "command" "").data)) b.data = true) ∧
    ((⟨false, true, [], []⟩ : PermissionManager).check_permission "bash"
      [("command", "rm -rf /")]).level = PermissionLevel.DENY := by
  have h : ∃ b ∈ PermissionManager.BLOCKED_COMMANDS,
      containsSub (pyStrip (pyLower
        (tiGet [("command", "rm -rf /")] "command" "").data)) b.data = true :=
    ⟨"rm -rf /", by decide, by decide⟩
  exact ⟨h, C1_blocklist_deny_every_mode _ _ (Or.inl h)⟩

/-- C5 counterexample: in normal mode with empty session rules, the command
`rm -rf /tmp/x` is NOT classified ASK (it is DENY: the blocklist substring
check already fires on it). -/
theorem C5_counterexample :
    ((⟨false, false, [], []⟩ : PermissionManager).check_permission "bash"
        [("command", "rm -rf /tmp/x")]).level = PermissionLevel.DENY ∧
    ((⟨false, false, [], []⟩ : PermissionManager).check_permission "bash"
        [("command", "rm -rf /tmp/x")]).level ≠ PermissionLevel.ASK := by
  decide

/-- C5 (amended): in normal mode with empty session rule sets the engine
classifies `rm -rf /tmp/x` as DENY with reason `Blocked command: rm -rf /`,
because the unconditional blocklist is a substring test and `rm -rf /` is
contained in the command text. -/
theorem C5_amended :
    (⟨false, false, [], []⟩ : PermissionManager).check_permission "bash"
        [("command", "rm -rf /tmp/x")] =
      ⟨"bash", [("command", "rm -rf /tmp/x")], PermissionLevel.DENY,
        some "Blocked command: rm -rf /"⟩ := by
  decide

/-- C6 counterexample: a session allow rule spelled `shell(npm test*)` does
NOT make `npm test --watch` AUTO — the stored kind the engine recognises is
`bash`, so the rule is ignored and the command stays ASK. -/
theorem C6_counterexample :
    ((⟨false, false, ["shell(npm test*)"], []⟩ :
        PermissionManager).check_permission "bash"
        [("command", "npm test --watch")]).level = PermissionLevel.ASK ∧
    ((⟨false, false, ["shell(npm test*)"], []⟩ :
        PermissionManager).check_permission "bash"
        [("command", "npm test --watch")]).level ≠ PermissionLevel.AUTO := by
  decide

/-- C6 (amended): the stored rule kind for shell commands is `bash`; with
`bash(npm test*)` in the session allow set, `npm test --watch` is AUTO in
every mode. -/
theorem C6_amended (t y : Bool) :
    ((⟨t, y, ["bash(npm test*)"], []⟩ :
        PermissionManager).check_permission "bash"
        [("command", "npm test --watch")]).level = PermissionLevel.AUTO := by
  cases t <;> cases y <;> decide

/-- C9: the unconditional blocklist is a case-insensitive substring test
over the whole command text: a command containing a blocked literal
anywhere in its lower-cased text (quoted contexts included) is DENY for
the engine in every mode, and `BashTool.execute` refuses it without
consulting the subprocess runner. -/
theorem C9_blocklist_substring_refusal (pm : PermissionManager)
    (ti : ToolInput) (b : String)
    (hbm : b ∈ PermissionManager.BLOCKED_COMMANDS)
    (hin : containsSub (pyLower (tiGet ti "command" "").data) b.data = true) :
    (pm.check_permission "bash" ti).level = PermissionLevel.DENY ∧
    ∀ runner timeout,
      BashTool.execute runner (tiGet ti "command" "") timeout =
        ⟨false, "", some "This command is blocked for safety reasons."⟩ := by
  have hbm' := hbm
  simp only [PermissionManager.BLOCKED_COMMANDS, List.mem_cons,
    List.not_mem_nil, or_false] at hbm'
  rcases hbm' with rfl | rfl | rfl
  · exact deny_and_refuse_of_blocked_literal pm ti _ "rm -rf /" hbm
      (by decide) (by decide) 'r' '/' "m -rf /".data "rm -rf ".data
      (by decide) (by decide) (by decide) (by decide) hin
  · exact deny_and_refuse_of_blocked_literal pm ti _ "rm -rf /" hbm
      (by decide) (by decide) 'r' '*' "m -rf /*".data "rm -rf /".data
      (by decide) (by decide) (by decide) (by decide) hin
  · exact deny_and_refuse_of_blocked_literal pm ti _ "dd if=/dev/zero of=/dev/"
      hbm (by decide) (by decide) 'd' 'a' "d if=/dev/zero of=/dev/sda".data
      "dd if=/dev/zero of=/dev/sd".data
      (by decide) (by decide) (by decide) (by decide) hin

/-- Witness for C9: an upper-cased blocked literal inside a quoted `echo`
argument is still refused everywhere. -/
theorem C9_witness :
    ("rm -rf /" ∈ PermissionManager.BLOCKED_COMMANDS) ∧
    containsSub (pyLower (tiGet [("command", "echo \"RM -RF / now\"")]
      "command" "").data) "rm -rf /".data = true ∧
    ((⟨true, false, [], []⟩ : PermissionManager).check_permission "bash"
      [("command", "echo \"RM -RF / now\"")]).level = PermissionLevel.DENY ∧
    BashTool.execute (fun _ _ => RunOutcome.timedOut)
        "echo \"RM -RF / now\"" 5 =
      ⟨false, "", some "This command is blocked for safety reasons."⟩ := by
  have hbm : "rm -rf /" ∈ PermissionManager.BLOCKED_COMMANDS := by decide
  have hin : containsSub (pyLower (tiGet [("command", "echo \"RM -RF / now\"")]
      "command" "").data) "rm -rf /".data = true := by decide
  have h := C9_blocklist_substring_refusal
    (⟨true, false, [], []⟩ : PermissionManager)
    [("command", "echo \"RM -RF / now\"")] "rm -rf /" hbm hin
  exact ⟨hbm, hin, h.1, h.2 (fun _ _ => RunOutcome.timedOut) 5⟩

/-- Helper for C10: the full shape of `check_permission` on the two
file-mutating tools — only the allow set, the trust flag and the yolo flag
are consulted. -/
theorem check_permission_write_eq (pm : PermissionManager)
    (name : String) (ti : ToolInput)
    (h : name = "write_file" ∨ name = "edit_file") :
    pm.check_permission name ti =
      ⟨name, ti,
        if pm.yolo_mode then .AUTO
        else if pm.session_allowlist.any
            (fun a => PermissionManager.writeRuleMatch a (tiGet ti "path" ""))
          then .AUTO
        else if pm.trust_mode then .AUTO else .ASK, none⟩ := by
  rcases h with rfl | rfl <;>
  · unfold PermissionManager.check_permission
    by_cases hy : pm.yolo_mode = true
    · simp [hy]
    · simp only [Bool.not_eq_true] at hy
      by_cases ha : pm.session_allowlist.any
          (fun a => PermissionManager.writeRuleMatch a (tiGet ti "path" ""))
          = true
      · simp [hy, ha]
      · simp only [Bool.not_eq_true] at ha
        by_cases ht : pm.trust_mode = true
        · simp [hy, ha, ht]
        · simp only [Bool.not_eq_true] at ht
          simp [hy, ha, ht]

/-- C10: for `write_file` and `edit_file` the engine never returns DENY —
the level is always AUTO or ASK — and the session deny set is never
consulted: replacing it with any other set leaves the decision unchanged. -/
theorem C10_write_tools_never_deny (pm : PermissionManager)
    (name : String) (ti : ToolInput) (dl : List String)
    (h : name = "write_file" ∨ name = "edit_file") :
    ((pm.check_permission name ti).level = PermissionLevel.AUTO ∨
     (pm.check_permission name ti).level = PermissionLevel.ASK) ∧
    ({ pm with session_denylist := dl } :
        PermissionManager).check_permission name ti =
      pm.check_permission name ti := by
  rw [check_permission_write_eq pm name ti h,
    check_permission_write_eq { pm with session_denylist := dl } name ti h]
  refine ⟨?_, rfl⟩
  by_cases hy : pm.yolo_mode = true
  · simp [hy]
  · simp only [Bool.not_eq_true] at hy
    by_cases ha : pm.session_allowlist.any
        (fun a => PermissionManager.writeRuleMatch a (tiGet ti "path" ""))
        = true
    · simp [hy, ha]
    · simp only [Bool.not_eq_true] at ha
      by_cases ht : pm.trust_mode = true
      · simp [hy, ha, ht]
      · simp only [Bool.not_eq_true] at ht
        simp [hy, ha, ht]

/-- Witness for C10: `write_file` in normal mode with a deny rule for the
very path still gets ASK (not DENY), and swapping the deny set changes
nothing. -/
theorem C10_witness :
    (("write_file" : String) = "write_file" ∨
      ("write_file" : String) = "edit_file") ∧
    (((⟨false, false, [], ["write(/tmp/f)"]⟩ :
        PermissionManager).check_permission "write_file"
        [("path", "/tmp/f")]).level = PermissionLevel.AUTO ∨
     ((⟨false, false, [], ["write(/tmp/f)"]⟩ :
        PermissionManager).check_permission "write_file"
        [("path", "/tmp/f")]).level = PermissionLevel.ASK) ∧
    ({ (⟨false, false, [], ["write(/tmp/f)"]⟩ : PermissionManager) with
        session_denylist := [] } :
        PermissionManager).check_permission "write_file"
        [("path", "/tmp/f")] =
      (⟨false, false, [], ["write(/tmp/f)"]⟩ :
        PermissionManager).check_permission "write_file"
        [("path", "/tmp/f")] := by
  have h := C10_write_tools_never_deny
    (⟨false, false, [], ["write(/tmp/f)"]⟩ : PermissionManager)
    "write_file" [("path", "/tmp/f")] [] (Or.inl rfl)
  exact ⟨Or.inl rfl, h.1, h.2⟩

/-- The two edit-failure messages are distinct for every occurrence count
(they already differ at character index 7). -/
theorem editAmbiguousMsg_ne_notFound (n : Nat) :
    editAmbiguousMsg n ≠ editNotFoundMsg := by
  intro h
  have h1 : (editAmbiguousMsg n).data[7]? = editNotFoundMsg.data[7]? := by
    rw [h]
  have hlen : 7 < ("String found ".data ++ (Nat.repr n).data).length := by
    rw [List.length_append]
    have h13 : ("String found ".data).length = 13 := by decide
    omega
  have h2 : (editAmbiguousMsg n).data[7]? = some 'f' := by
    show (("String found ".data ++ (Nat.repr n).data) ++ _)[7]? = some 'f'
    rw [List.getElem?_append, if_pos hlen, List.getElem?_append,
      if_pos (show 7 < ("String found ".data).length by decide)]
    decide
  rw [h2] at h1
  exact absurd h1.symm (by decide)

/-- C2 counterexample: the stored file `hello` CRLF `world` contains
`world` exactly once, and the edit succeeds — but the stored content
afterwards is `hello` LF `there`, not `hello` CRLF `there`: the text-mode
round-trip normalizes the CRLF outside the replaced region, so the result
is NOT byte-for-byte identical to the original there. -/
theorem C2_counterexample :
    countOcc "hello\r\nworld".data "world".data = 1 ∧
    (EditFileTool.execute fsCrlf "p.txt" "world" "there").1.success
      = true ∧
    (EditFileTool.execute fsCrlf "p.txt" "world" "there").2 "p.txt" =
      some "hello\nthere" ∧
    ("hello\nthere" : String) ≠ "hello\r\nthere" := by
  decide

/-- C2 (amended): when `old_str` occurs exactly once in the file's
text-mode content (the universal-newline translation of the stored bytes),
the edit succeeds and the stored content afterwards is that translated
content with exactly the one occurrence replaced by `new_str` — identical
to the translated content outside the replaced region (same `pre`/`suf`
on both sides); CR/CRLF newlines elsewhere are normalized to LF by the
round-trip. -/
theorem C2_edit_unique_replaces_once (fs : FS)
    (path old_str new_str raw : String)
    (hf : fs path = some raw)
    (h1 : countOcc (univNewlines raw.data) old_str.data = 1) :
    (EditFileTool.execute fs path old_str new_str).1.success = true ∧
    ∃ pre suf, univNewlines raw.data = pre ++ old_str.data ++ suf ∧
      (EditFileTool.execute fs path old_str new_str).2 path =
        some (String.mk (pre ++ new_str.data ++ suf)) := by
  obtain ⟨pre, suf, hdecomp, hrepl⟩ :=
    pyReplace_of_count_one (univNewlines raw.data) old_str.data
      new_str.data h1
  refine ⟨?_, pre, suf, hdecomp, ?_⟩ <;>
    simp [EditFileTool.execute, hf, h1, hrepl]

/-- Witness for C2: replacing the unique `world` in a CRLF file. -/
theorem C2_witness :
    fsCrlf "p.txt" = some "hello\r\nworld" ∧
    countOcc (univNewlines "hello\r\nworld".data) "world".data = 1 ∧
    (EditFileTool.execute fsCrlf "p.txt" "world" "there").1.success
      = true ∧
    ∃ pre suf,
      univNewlines "hello\r\nworld".data = pre ++ "world".data ++ suf ∧
      (EditFileTool.execute fsCrlf "p.txt" "world" "there").2 "p.txt" =
        some (String.mk (pre ++ "there".data ++ suf)) := by
  have hf : fsCrlf "p.txt" = some "hello\r\nworld" := by decide
  have h1 : countOcc (univNewlines "hello\r\nworld".data) "world".data
      = 1 := by decide
  have h := C2_edit_unique_replaces_once fsCrlf "p.txt" "world" "there"
    "hello\r\nworld" hf h1
  exact ⟨hf, h1, h.1, h.2⟩

/-- C3 counterexample: the stored file `a` CRLF `b` contains the raw
substring `a` LF `b` zero times, yet the edit does NOT fail and does NOT
leave the file unmodified: the program counts over the text-mode
translation `a` LF `b`, finds one occurrence, succeeds, and rewrites the
whole file to `xy`. -/
theorem C3_counterexample :
    countOcc "a\r\nb".data "a\nb".data = 0 ∧
    (EditFileTool.execute fsCr "q.txt" "a\nb" "xy").1.success = true ∧
    (EditFileTool.execute fsCr "q.txt" "a\nb" "xy").2 "q.txt" =
      some "xy" ∧
    some ("xy" : String) ≠ some ("a\r\nb" : String) := by
  decide

/-- C3 (amended): when `old_str` occurs zero times or more than once in
the file's text-mode (universal-newline translated) content, the edit
fails (success is false), the filesystem is returned unchanged, and the
error is the not-found message resp. the ambiguous-count message — two
messages that differ for every count. -/
theorem C3_edit_nonunique_rejected (fs : FS)
    (path old_str new_str raw : String)
    (hf : fs path = some raw)
    (h : countOcc (univNewlines raw.data) old_str.data = 0 ∨
         1 < countOcc (univNewlines raw.data) old_str.data) :
    (EditFileTool.execute fs path old_str new_str).1.success = false ∧
    (EditFileTool.execute fs path old_str new_str).2 = fs ∧
    (EditFileTool.execute fs path old_str new_str).1.error =
      some (if countOcc (univNewlines raw.data) old_str.data = 0
            then editNotFoundMsg
            else editAmbiguousMsg
              (countOcc (univNewlines raw.data) old_str.data)) ∧
    ∀ n, editAmbiguousMsg n ≠ editNotFoundMsg := by
  rcases h with h0 | h2
  · refine ⟨?_, ?_, ?_, editAmbiguousMsg_ne_notFound⟩ <;>
      simp [EditFileTool.execute, hf, h0]
  · have hne : ¬ countOcc (univNewlines raw.data) old_str.data = 0 := by
      omega
    refine ⟨?_, ?_, ?_, editAmbiguousMsg_ne_notFound⟩ <;>
      simp [EditFileTool.execute, hf, hne, h2]

/-- Witness for C3: `xyz` does not occur in `hello world`. -/
theorem C3_witness :
    fsNotes "notes.txt" = some "hello world" ∧
    countOcc (univNewlines "hello world".data) "xyz".data = 0 ∧
    (EditFileTool.execute fsNotes "notes.txt" "xyz" "abc").1.success
      = false ∧
    (EditFileTool.execute fsNotes "notes.txt" "xyz" "abc").2 = fsNotes ∧
    (EditFileTool.execute fsNotes "notes.txt" "xyz" "abc").1.error =
      some editNotFoundMsg := by
  have hf : fsNotes "notes.txt" = some "hello world" := by decide
  have h0 : countOcc (univNewlines "hello world".data) "xyz".data = 0 := by
    decide
  have h := C3_edit_nonunique_rejected fsNotes "notes.txt" "xyz" "abc"
    "hello world" hf (Or.inl h0)
  exact ⟨hf, h0, h.1, h.2.1, by simpa [h0] using h.2.2.1⟩

/-- Helper for C4: when the model always requests tool calls, the bounded
loop runs all `n` remaining turns and reports incompletion, performing
exactly `n` round-trips. -/
theorem runLoop_always_tool_calls (client : List Message → LLMResponse)
    (execTool : ToolCall → String)
    (hm : ∀ msgs, (client msgs).tool_calls ≠ []) :
    ∀ (n : Nat) (a : Agent),
      (Agent.runLoop client execTool n a).1 =
        "Task incomplete - maximum turns reached." ∧
      (Agent.runLoop client execTool n a).2.2 = n := by
  intro n
  induction n with
  | zero => intro a; exact ⟨rfl, rfl⟩
  | succ k ih =>
    intro a
    have hrt : (Agent.run_turn client execTool a none).1 = none := by
      unfold Agent.run_turn
      have htc : (client a.history.get_full_context).has_tool_calls
          = true := by
        simp only [LLMResponse.has_tool_calls, gt_iff_lt,
          decide_eq_true_eq, List.length_pos]
        exact hm _
      simp [htc]
    cases hre : Agent.run_turn client execTool a none with
    | mk o a' =>
      have ho : o = none := by rw [← hrt, hre]
      subst ho
      simp only [Agent.runLoop, hre]
      exact ⟨(ih a').1, by simp [(ih a').2]⟩

/-- C4: with a model collaborator that always replies with at least one
tool call and never a final text answer, `Agent.run` with turn budget
`N ≥ 1` terminates after exactly `N` model round-trips and returns the
explicit incomplete-result string. -/
theorem C4_turn_budget_exhaustion (client : List Message → LLMResponse)
    (execTool : ToolCall → String) (a : Agent) (task : String)
    (hm : ∀ msgs, (client msgs).tool_calls ≠ [])
    (_hN : 1 ≤ a.config.max_turns) :
    (Agent.run client execTool a task).1 =
      "Task incomplete - maximum turns reached." ∧
    (Agent.run client execTool a task).2.2 = a.config.max_turns := by
  unfold Agent.run
  exact runLoop_always_tool_calls client execTool hm a.config.max_turns _

/-- Witness for C4: a concrete two-turn agent with a looping model. -/
theorem C4_witness :
    (∀ msgs, (clientLoop msgs).tool_calls ≠ []) ∧
    1 ≤ agentTwoTurns.config.max_turns ∧
    (Agent.run clientLoop execToolOk agentTwoTurns "fix the bug").1 =
      "Task incomplete - maximum turns reached." ∧
    (Agent.run clientLoop execToolOk agentTwoTurns "fix the bug").2.2
      = 2 := by
  have hm : ∀ msgs, (clientLoop msgs).tool_calls ≠ [] := by
    intro msgs
    simp [clientLoop]
  have h := C4_turn_budget_exhaustion clientLoop execToolOk agentTwoTurns
    "fix the bug" hm (by decide)
  exact ⟨hm, by decide, h.1, h.2⟩

/-- C7 counterexample: after writing `hello` to `f.txt`, reading it back
succeeds, but the returned output is NOT the original content: it is the
line-numbered rendering with a `Contents of` header. -/
theorem C7_counterexample :
    (ReadFileTool.execute (WriteFileTool.execute emptyFS "f.txt" "hello").2
      "f.txt" none 1).success = true ∧
    (ReadFileTool.execute (WriteFileTool.execute emptyFS "f.txt" "hello").2
      "f.txt" none 1).output ≠ "hello" := by
  decide

/-- C7 (amended): writing then reading the same path (no offset/limit)
always succeeds, and the returned output is the line-numbered rendering of
the written content (header plus per-line number and tab, each line
right-stripped) — the original content up to that fixed formatting, not
the raw string itself. -/
theorem C7_amended_write_read (fs : FS) (path content : String) :
    (WriteFileTool.execute fs path content).1.success = true ∧
    (ReadFileTool.execute (WriteFileTool.execute fs path content).2
      path none 1).success = true ∧
    (ReadFileTool.execute (WriteFileTool.execute fs path content).2
      path none 1).output = readRender path content none 1 := by
  refine ⟨rfl, ?_, ?_⟩ <;>
    simp [WriteFileTool.execute, ReadFileTool.execute]

/-- C8: `Agent.reset` empties the message history but leaves the session
rule sets of the permission manager exactly as they were. -/
theorem C8_reset_preserves_session_rules (a : Agent) :
    (a.reset).permissions.session_allowlist
      = a.permissions.session_allowlist ∧
    (a.reset).permissions.session_denylist
      = a.permissions.session_denylist ∧
    (a.reset).history.messages = [] :=
  ⟨rfl, rfl, rfl⟩

end DeepseekCode
